import Mathlib

/-!
Verification of the timezone-resolution library `go-olson-timezone`.

The Go sources (`timezone_unix.go`, `timezone_windows.go`, `timezone.go`)
are shallowly embedded below.  External effects (environment variables,
file reads, `lstat`/`readlink`, `realpath`, the registry) are modelled as
explicit fields of a `World` record, so every function of the program
becomes a pure Lean function of the world it runs in.  Go `string`s are
Lean `String`s, Go errors are `Option String` (`none` = nil error,
`some msg` = an error with message `msg`).
-/

namespace Olson

/-! ### Go string primitives used by the program -/

/-- Character class of Go `unicode.IsSpace` (the set trimmed by
`strings.TrimSpace`). -/
def goIsSpace (c : Char) : Bool :=
  c = ' ' || c = '\t' || c = '\n' || c = '\x0b' || c = '\x0c' || c = '\r' ||
  c = '\u0085' || c = '\u00a0' || c = '\u1680' ||
  ('\u2000' ≤ c && c ≤ '\u200a') ||
  c = '\u2028' || c = '\u2029' || c = '\u202f' || c = '\u205f' || c = '\u3000'

/-- Character class of `\s` in Go's `regexp` package: `[\t\n\f\r ]`. -/
def reSpace (c : Char) : Bool :=
  c = ' ' || c = '\t' || c = '\n' || c = '\x0c' || c = '\r'

/-- Go `strings.Trim s cutset`: remove leading and trailing characters
belonging to `cutset`. -/
def goTrim (s : String) (cutset : List Char) : String :=
  String.mk (((s.toList.dropWhile (fun c => c ∈ cutset)).reverse.dropWhile
    (fun c => c ∈ cutset)).reverse)

/-- Go `strings.TrimSpace`. -/
def goTrimSpace (s : String) : String :=
  String.mk (((s.toList.dropWhile goIsSpace).reverse.dropWhile goIsSpace).reverse)

/-- Go `strings.ReplaceAll s " " "_"` (a single-character replacement is a
character map). -/
def spaceToUnderscore (s : String) : String :=
  String.mk (s.toList.map (fun c => if c = ' ' then '_' else c))

/-- The character-list split under `goSplit`. -/
def splitCharList (c : Char) : List Char → List (List Char)
  | [] => [[]]
  | d :: rest =>
    if d = c then [] :: splitCharList c rest
    else
      match splitCharList c rest with
      | [] => [[d]]
      | h :: t => (d :: h) :: t

/-- Go `strings.Split s (String.singleton c)` (every separator the
program splits on is a single character: the path separator or LF). -/
def goSplit (s : String) (c : Char) : List String :=
  (splitCharList c s.toList).map String.mk

/-- The character-list join under `joinChar`. -/
def joinCharList (c : Char) : List (List Char) → List Char
  | [] => []
  | [x] => x
  | x :: y :: rest => x ++ c :: joinCharList c (y :: rest)

/-- Go `strings.Join parts (String.singleton c)`. -/
def joinChar (c : Char) (parts : List String) : String :=
  String.mk (joinCharList c (parts.map String.toList))

/-- Go `filepath.IsAbs` on Unix: the path starts with a slash. -/
def isAbs (s : String) : Bool :=
  match s.toList with
  | '/' :: _ => true
  | _ => false

/-- Go `strings.ReplaceAll s "\r\n" "\n"` on the character list: leftmost,
non-overlapping replacement of CRLF by LF. -/
def crlfToLf : List Char → List Char
  | [] => []
  | '\r' :: '\n' :: rest => '\n' :: crlfToLf rest
  | c :: rest => c :: crlfToLf rest

/-- String version of `crlfToLf`. -/
def crlfToLfS (s : String) : String := String.mk (crlfToLf s.toList)

/-- Go `strings.SplitN line sep 2` first component, for a one-character
separator: the prefix of `line` strictly before the first occurrence of
`c` (the whole line when `c` does not occur). -/
def beforeChar (line : String) (c : Char) : String :=
  String.mk (line.toList.takeWhile (fun d => d ≠ c))

/-- The suffix of `s` after the first occurrence of the pattern `pat`
(Go `s[strings.Index(s, pat) + len(pat):]`); `none` when `pat` does not
occur. -/
def afterSubstr (pat : List Char) : List Char → Option (List Char)
  | [] => if pat = [] then some [] else none
  | c :: rest =>
    if pat.isPrefixOf (c :: rest) then some ((c :: rest).drop pat.length)
    else afterSubstr pat rest

/-! ### Go `path/filepath` on Unix (`os.PathSeparator` is the slash) -/

/-- The component-stack pass of Go `filepath.Clean`: empty and dot
components vanish, a dotdot component pops the previous component (or is
dropped at the root of a rooted path, or kept at the front of a relative
path). -/
def cleanPathComponents (rooted : Bool) : List String → List String → List String
  | [], stack => stack.reverse
  | comp :: rest, stack =>
    if comp = "" || comp = "." then cleanPathComponents rooted rest stack
    else if comp = ".." then
      match stack with
      | top :: stackTail =>
        if top = ".." then cleanPathComponents rooted rest (comp :: top :: stackTail)
        else cleanPathComponents rooted rest stackTail
      | [] =>
        if rooted then cleanPathComponents rooted rest []
        else cleanPathComponents rooted rest [comp]
    else cleanPathComponents rooted rest (comp :: stack)

/-- Go `filepath.Clean` on Unix. -/
def cleanPath (p : String) : String :=
  if p = "" then "."
  else
    let rooted := isAbs p
    let comps := cleanPathComponents rooted (goSplit p '/') []
    let out := joinChar '/' comps
    if rooted then "/" ++ out
    else if out = "" then "." else out

/-- Go `filepath.Join a b` on Unix: the non-empty elements joined with a
slash, then cleaned; the empty string when both elements are empty. -/
def filepathJoin (a b : String) : String :=
  if a = "" && b = "" then ""
  else if a = "" then cleanPath b
  else if b = "" then cleanPath a
  else cleanPath (a ++ "/" ++ b)

/-! ### The resolver (`resolveTimezones`, `appendIfMissing`) -/

/-- `appendIfMissing` from `timezone_unix.go`: append `s` to `slice`
unless it is already present. -/
def appendIfMissing (slice : List String) (s : String) : List String :=
  if s ∈ slice then slice else slice ++ [s]

/-- The filtering loop of `resolveTimezones`: each candidate is joined
under `zoneinfo` and passed to `realpath` (the field `rp` of the world);
candidates whose path does not resolve are skipped; a surviving resolved
path is cut down to an identifier by the Go slice
`strings.Split(path, "/")[depth:]` rejoined with slashes, and accumulated
without duplicates.  The Go slice expression is only defined for
`depth <= len(parts)`; on a resolved path with fewer than `depth`
segments it panics with a slice-bounds error, which the embedding models
as the result `none` (no list of survivors is ever produced). -/
def survivorsLoop (rp : String → Option String) (zoneinfo : String) (depth : Nat) :
    List String → List String → Option (List String)
  | [], filtered => some filtered
  | tzname :: rest, filtered =>
    match rp (filepathJoin zoneinfo tzname) with
    | none => survivorsLoop rp zoneinfo depth rest filtered
    | some path =>
      if depth ≤ (goSplit path '/').length then
        survivorsLoop rp zoneinfo depth rest
          (appendIfMissing filtered (joinChar '/' ((goSplit path '/').drop depth)))
      else none

/-- The conflict error message of `resolveTimezones`, built exactly as the
Go loop builds it: header, then one line per identifier, then the
remediation sentence. -/
def conflictMessage (filtered : List String) : String :=
  (filtered.foldl (fun message v => message ++ (v ++ "\n"))
    "multiple conflicting time zone configurations found:\n")
  ++ "Fix the configuration, or set the time zone in a TZ environment variable"

/-- `resolveTimezones` from `timezone_unix.go`.  `rp` models
`realpath.Realpath` (`none` = the call returned an error).  The local
`depth` (the segment count of `zoneinfo`) and `filtered` of the Go code
are inlined into the match on the filtering loop's result.  An overall
result of `none` models the slice-bounds panic propagating out of the
loop: the program crashes and never returns a pair. -/
def resolveTimezones (rp : String → Option String) (timezones : List String)
    (zoneinfo : String) : Option (String × Option String) :=
  match timezones with
  | [] => some ("", none)
  | [tz] => some (tz, none)
  | t1 :: t2 :: rest =>
    match survivorsLoop rp zoneinfo ((goSplit zoneinfo '/').length) (t1 :: t2 :: rest) [] with
    | none => none
    | some [f] => some (f, none)
    | some [] => some ("", none)
    | some fs => some ("", some (conflictMessage fs))

/-! ### The clock-file probe (`timezoneRegex`, `parseFromClock`) -/

/-- `bufio.ScanLines` applied to one trailing carriage return of a line. -/
def dropCR (l : List Char) : List Char :=
  match l.reverse with
  | '\r' :: rest => rest.reverse
  | _ => l

/-- The sequence of lines a `bufio.Scanner` with the default `ScanLines`
split yields on `data`: split at every LF, drop one trailing CR per line,
and do not emit the empty token after a final LF. -/
def scanLines (data : String) : List String :=
  if data = "" then []
  else
    let ls := goSplit data '\n'
    let ls := if ls.getLastD "" = "" then ls.dropLast else ls
    ls.map (fun l => String.mk (dropCR l.toList))

/-- The key alternative of `timezoneRegex`: the line (already stripped of
leading whitespace) must start with the literal `TIMEZONE` or `ZONE`. -/
def stripKey (cs : List Char) : Option (String × List Char) :=
  if "TIMEZONE".toList.isPrefixOf cs then some ("TIMEZONE", cs.drop 8)
  else if "ZONE".toList.isPrefixOf cs then some ("ZONE", cs.drop 4)
  else none

/-- Matching of `timezoneRegex`, the anchored pattern
whitespace, `TIMEZONE` or `ZONE`, whitespace, equals sign, whitespace,
a double quote, the capture `tz` (any characters but LF), and a final
double quote at the end of the line.  Returns the matched key and the
`tz` capture, or `none` when the line does not match. -/
def reMatch (line : String) : Option (String × String) :=
  match stripKey (line.toList.dropWhile reSpace) with
  | none => none
  | some (key, cs1) =>
    match cs1.dropWhile reSpace with
    | '=' :: cs3 =>
      match cs3.dropWhile reSpace with
      | '"' :: cs5 =>
        match cs5.reverse with
        | '"' :: midrev =>
          let mid := midrev.reverse
          if mid.contains '\n' then none else some (key, String.mk mid)
        | _ => none
      | _ => none
    | _ => none

/-- `timezoneRegex.FindStringSubmatch line`: the empty list models Go's
`nil` (no match); on a match the list holds the whole match (the line,
as the pattern is anchored at both ends), the key group and the `tz`
group. -/
def findStringSubmatch (line : String) : List String :=
  match reMatch line with
  | none => []
  | some (key, tz) => [line, key, tz]

/-- `timezoneRegex.SubexpNames()`: the whole match and the key group are
unnamed, the value group is named `tz`. -/
def subexpNames : List String := ["", "", "tz"]

/-- The `paramsMap` loop of `parseFromClock`: for every index `i` of a
subexpression name with `i > 0 && i <= len(match)`, store
`match[i]` under that name (`List.getD` stands for the Go indexing,
which only ever happens in bounds). -/
def buildParamsMap (m : List String) : List (String × String) :=
  subexpNames.enum.foldl
    (fun pm p => if 0 < p.1 ∧ p.1 ≤ m.length then pm ++ [(p.2, m.getD p.1 "")] else pm)
    []

/-- Go map read `paramsMap[k]` with the zero value for a missing key
(later insertions shadow earlier ones, hence the reverse). -/
def mapGetD (pm : List (String × String)) (k : String) : String :=
  (pm.reverse.lookup k).getD ""

/-- The body of the scanner loop of `parseFromClock` for one line. -/
def clockBody (acc : List String) (line : String) : List String :=
  let m := findStringSubmatch line
  let pm := buildParamsMap m
  if pm.length = 0 ∨ mapGetD pm "tz" = "" then acc
  else acc ++ [spaceToUnderscore (mapGetD pm "tz")]

/-- The body of the file loop of `parseFromClock` for one path: a file
that does not open is skipped, an open one is scanned line by line. -/
def clockFileStep (openFile : String → Option String) (acc : List String)
    (filename : String) : List String :=
  match openFile filename with
  | none => acc
  | some content => (scanLines content).foldl clockBody acc

/-- `parseFromClock` from `timezone_unix.go`; `openFile` models `os.Open`
followed by reading the whole file through the scanner (`none` = the open
failed, the file is skipped). -/
def parseFromClock (openFile : String → Option String) (paths : List String) :
    List String :=
  paths.foldl (clockFileStep openFile) []

/-! ### The config-file probe (`parseFromConfigFile`) -/

/-- The cutset of the whole-content trim in `parseFromConfigFile`:
slash, space, tab, CR, LF. -/
def configCutset : List Char := ['/', ' ', '\t', '\r', '\n']

/-- The body of the line loop of `parseFromConfigFile`: cut the line at
the first space, then at the first hash, trim whitespace, and append the
space-to-underscore normalization when non-empty. -/
def configBody (acc : List String) (line : String) : List String :=
  let line1 := if line.toList.contains ' ' then beforeChar line ' ' else line
  let line2 := if line1.toList.contains '#' then beforeChar line1 '#' else line1
  let line3 := goTrimSpace line2
  if line3 ≠ "" then acc ++ [spaceToUnderscore line3] else acc

/-- The body of the file loop of `parseFromConfigFile` for one path: a
file that does not read is skipped; the content is trimmed of leading and
trailing slashes and whitespace, skipped if then empty, and otherwise
split into lines (after CRLF normalization) fed to the line loop. -/
def configFileStep (readFile : String → Option String) (acc : List String)
    (configfile : String) : List String :=
  match readFile configfile with
  | none => acc
  | some data =>
    let etctz := goTrim data configCutset
    if etctz = "" then acc
    else (goSplit (crlfToLfS etctz) '\n').foldl configBody acc

/-- `parseFromConfigFile` from `timezone_unix.go`; `readFile` models
`os.ReadFile` (`none` = the read failed, the file is skipped). -/
def parseFromConfigFile (readFile : String → Option String) (paths : List String) :
    List String :=
  paths.foldl (configFileStep readFile) []

/-! ### The world, the environment and symlink probes, and `Name` -/

/-- The external state a Unix invocation reads.  `timezones` stands for
the canonical timezone table.  Modelled from the spec: the table itself
(the package-level `timezones` map of canonical identifiers) is not among
the sources, only its membership test is used, so it appears as an
abstract membership predicate. -/
structure World where
  getenvTZ : String
  timezones : String → Bool
  stat : String → Bool
  readFile : String → Option String
  lstat : String → Option Bool
  readlink : String → Option String
  realpath : String → Option String

/-- `fileExists` from `timezone_unix.go` (`stat` already abstracts
the disjunction of a nil `os.Stat` error with `os.IsExist`). -/
def fileExists (w : World) (fp : String) : Bool := w.stat fp

/-- `parseEnv` from `timezone_unix.go`. -/
def parseEnv (w : World) : String :=
  let tzenv := w.getenvTZ
  if tzenv = "" then ""
  else if w.timezones tzenv then tzenv
  else if isAbs tzenv && fileExists w tzenv then
    let parts := goSplit tzenv '/'
    let joined := joinChar '/' (parts.drop (parts.length - 2))
    if w.timezones joined then joined
    else if w.timezones (parts.getLastD "") then parts.getLastD ""
    else ""
  else ""

/-- `parseSymlink` from `timezone_unix.go`: `lstat` yields whether the
path is a symlink (`none` = the call failed), `readlink` the raw link
target. -/
def parseSymlink (w : World) (path : String) : String :=
  match w.lstat path with
  | none => ""
  | some isLink =>
    if isLink then
      match w.readlink path with
      | none => ""
      | some tz =>
        match afterSubstr "zoneinfo/".toList tz.toList with
        | none => ""
        | some rest => spaceToUnderscore (String.mk rest)
    else ""

/-- `Name` from `timezone_unix.go` (the Unix and Darwin entry point).
An overall `none` models the resolver's slice-bounds panic propagating
out of `Name`: the program crashes and never returns a pair. -/
def Name (w : World) : Option (String × Option String) :=
  let tzenv := parseEnv w
  if tzenv ≠ "" then some (tzenv, none)
  else
    let timezones := parseFromConfigFile w.readFile ["/etc/timezone", "/var/db/zoneinfo"]
    let timezones := timezones ++
      parseFromClock w.readFile ["/etc/sysconfig/clock", "/etc/conf.d/clock"]
    let parsed := parseSymlink w "/etc/localtime"
    let timezones := if parsed ≠ "" then timezones ++ [parsed] else timezones
    resolveTimezones w.realpath timezones "/usr/share/zoneinfo"

/-- Two sequenced invocations of `Name` against one unchanged world. -/
def nameTwice (w : World) :
    Option (String × Option String) × Option (String × Option String) :=
  let first := Name w
  let second := Name w
  (first, second)

/-! ### The Windows entry point and the unsupported-platform stub -/

/-- The external state a Windows invocation reads.  Modelled from the
spec where data files are missing from the sources: `timezones` is the
canonical table's membership test and `windowsTimezones` the
display-name-to-identifier table; `openKeyOk` models whether the
registry key opens and `tzKeyName` the `TimeZoneKeyName` string value
(`none` = the value read failed). -/
structure WinWorld where
  getenvTZ : String
  timezones : String → Bool
  stat : String → Bool
  openKeyOk : Bool
  tzKeyName : Option String
  windowsTimezones : String → Option String

/-- `parseEnv` from `timezone_windows.go` (textually the same function as
the Unix one, compiled for the other platform). -/
def parseEnvWin (w : WinWorld) : String :=
  let tzenv := w.getenvTZ
  if tzenv = "" then ""
  else if w.timezones tzenv then tzenv
  else if isAbs tzenv && w.stat tzenv then
    let parts := goSplit tzenv '/'
    let joined := joinChar '/' (parts.drop (parts.length - 2))
    if w.timezones joined then joined
    else if w.timezones (parts.getLastD "") then parts.getLastD ""
    else ""
  else ""

/-- Go `strings.ReplaceAll s "\x00" ""`: strip embedded NUL bytes. -/
def stripNulls (s : String) : String :=
  String.mk (s.toList.filter (fun c => c ≠ '\x00'))

/-- `Name` from `timezone_windows.go` (the Windows entry point). -/
def NameWindows (w : WinWorld) : String × Option String :=
  let tzenv := parseEnvWin w
  if tzenv ≠ "" then (tzenv, none)
  else if !w.openKeyOk then ("", some "failed to open registry key")
  else
    match w.tzKeyName with
    | none => ("", some "can not find windows timezone configuration")
    | some raw =>
      let tzwin := stripNulls raw
      match w.windowsTimezones tzwin with
      | some tz => (tz, none)
      | none =>
        let tzwin2 := tzwin ++ " Standard Time"
        match w.windowsTimezones tzwin2 with
        | some tz => (tz, none)
        | none => ("", some ("windows timezone '" ++ tzwin2 ++ "' not found"))

/-- `Name` from `timezone.go` (any platform that is neither Unix, Darwin
nor Windows): always an error naming `runtime.GOOS`. -/
def NameUnsupported (goos : String) : String × Option String :=
  ("", some ("name not implemented for '" ++ goos ++ "'"))

/-! ### Specification-side descriptions of the pipelines

The following definitions restate, one combinator at a time, what the
spec says each loop above computes; the claim theorems below prove the
loops equal to them. -/

/-- The identifier the resolver recovers from a resolved path: drop
`depth` leading components and rejoin with slashes. -/
def identifierAtDepth (depth : Nat) (path : String) : String :=
  joinChar '/' ((goSplit path '/').drop depth)

/-- The surviving identifiers of a candidate list, in order: each
candidate is joined under the root and resolved; unresolvable candidates
are skipped; survivors are cut down to identifiers at the given depth. -/
def survivorIdsD (rp : String → Option String) (zoneinfo : String) (depth : Nat)
    (timezones : List String) : List String :=
  timezones.filterMap (fun t => (rp (filepathJoin zoneinfo t)).map (identifierAtDepth depth))

/-- The surviving identifiers at the depth the resolver uses: the number
of segments of the zone-database root. -/
def survivorIds (rp : String → Option String) (zoneinfo : String)
    (timezones : List String) : List String :=
  survivorIdsD rp zoneinfo ((goSplit zoneinfo '/').length) timezones

/-- Deduplication preserving first-seen order. -/
def dedupFirstSeen (l : List String) : List String :=
  l.foldl appendIfMissing []

/-- Each identifier on its own line. -/
def lineBlock : List String → String
  | [] => ""
  | v :: rest => v ++ "\n" ++ lineBlock rest

/-- The per-line processing the spec ascribes to the config-file probe:
drop everything after the first space, drop everything after the first
hash, trim surrounding whitespace, keep the space-normalized line only
when non-empty. -/
def processConfigLine (line : String) : Option String :=
  let line1 := if line.toList.contains ' ' then beforeChar line ' ' else line
  let line2 := if line1.toList.contains '#' then beforeChar line1 '#' else line1
  let line3 := goTrimSpace line2
  if line3 = "" then none else some (spaceToUnderscore line3)

/-- The per-line processing the spec ascribes to the key=value probe: a
line contributes exactly when the anchored pattern matches with a
non-empty captured value, and contributes that value space-normalized. -/
def processClockLine (line : String) : Option String :=
  match reMatch line with
  | none => none
  | some kt => if kt.2 = "" then none else some (spaceToUnderscore kt.2)

/-- The contribution of one path to the config-file probe: nothing when
unreadable, otherwise the trimmed content's lines piped through
`processConfigLine`. -/
def configFileResult (readFile : String → Option String) (p : String) : List String :=
  match readFile p with
  | none => []
  | some data =>
    (goSplit (crlfToLfS (goTrim data configCutset)) '\n').filterMap processConfigLine

/-- The contribution of one path to the key=value probe: nothing when
unopenable, otherwise the scanned lines piped through `processClockLine`. -/
def clockFileResult (openFile : String → Option String) (p : String) : List String :=
  match openFile p with
  | none => []
  | some content => (scanLines content).filterMap processClockLine

/-! ### Helper lemmas relating the loops to the pipelines -/

theorem survivorsLoop_eq_foldl (rp : String → Option String) (zoneinfo : String)
    (depth : Nat) (ts : List String) (acc : List String)
    (hdeep : ∀ t ∈ ts, ∀ p, rp (filepathJoin zoneinfo t) = some p →
      depth ≤ (goSplit p '/').length) :
    survivorsLoop rp zoneinfo depth ts acc
      = some ((survivorIdsD rp zoneinfo depth ts).foldl appendIfMissing acc) := by
  induction ts generalizing acc with
  | nil => rfl
  | cons t rest ih =>
    have hdeepRest : ∀ t2 ∈ rest, ∀ p, rp (filepathJoin zoneinfo t2) = some p →
        depth ≤ (goSplit p '/').length :=
      fun t2 ht2 => hdeep t2 (List.mem_cons_of_mem t ht2)
    have ihp := fun a => ih a hdeepRest
    cases h : rp (filepathJoin zoneinfo t) with
    | none =>
      simp [survivorsLoop, survivorIdsD, List.filterMap_cons, h, ihp,
        identifierAtDepth]
    | some path =>
      have hle : depth ≤ (goSplit path '/').length :=
        hdeep t (List.mem_cons_self t rest) path h
      simp [survivorsLoop, survivorIdsD, List.filterMap_cons, h, hle,
        ihp, identifierAtDepth]

theorem conflict_foldl_eq_lineBlock (l : List String) (s : String) :
    l.foldl (fun message v => message ++ (v ++ "\n")) s = s ++ lineBlock l := by
  induction l generalizing s with
  | nil => simp [lineBlock, String.append_empty]
  | cons v rest ih =>
    simp only [List.foldl_cons, lineBlock, ih, String.append_assoc]

theorem conflictMessage_eq (f : List String) :
    conflictMessage f
      = "multiple conflicting time zone configurations found:\n" ++ lineBlock f
        ++ "Fix the configuration, or set the time zone in a TZ environment variable" := by
  simp only [conflictMessage, conflict_foldl_eq_lineBlock]

theorem buildParamsMap_nil_eq : buildParamsMap [] = [] := rfl

theorem buildParamsMap_match_eq (a b c : String) :
    buildParamsMap [a, b, c] = [("", b), ("tz", c)] := rfl

theorem mapGetD_match_eq (b c : String) :
    mapGetD [("", b), ("tz", c)] "tz" = c := rfl

theorem clockBody_eq (acc : List String) (line : String) :
    clockBody acc line = acc ++ (processClockLine line).toList := by
  cases h : reMatch line with
  | none =>
    simp [clockBody, findStringSubmatch, h, buildParamsMap_nil_eq,
      processClockLine, mapGetD]
  | some kt =>
    obtain ⟨k, t⟩ := kt
    by_cases ht : t = ""
    · simp [clockBody, findStringSubmatch, h, buildParamsMap_match_eq,
        mapGetD_match_eq, processClockLine, ht]
    · simp [clockBody, findStringSubmatch, h, buildParamsMap_match_eq,
        mapGetD_match_eq, processClockLine, ht]

theorem foldl_clockBody_eq (lines : List String) (acc : List String) :
    lines.foldl clockBody acc = acc ++ lines.filterMap processClockLine := by
  induction lines generalizing acc with
  | nil => simp
  | cons l rest ih =>
    rw [List.foldl_cons, clockBody_eq, ih, List.filterMap_cons]
    cases h : processClockLine l <;> simp [h]

theorem ite_append_toList (A u : String) (acc : List String) :
    (if A ≠ "" then acc ++ [u] else acc)
      = acc ++ (if A = "" then none else some u).toList := by
  by_cases h : A = "" <;> simp [h]

theorem configBody_eq (acc : List String) (line : String) :
    configBody acc line = acc ++ (processConfigLine line).toList := by
  simp only [configBody, processConfigLine]
  exact ite_append_toList _ _ _

theorem foldl_configBody_eq (lines : List String) (acc : List String) :
    lines.foldl configBody acc = acc ++ lines.filterMap processConfigLine := by
  induction lines generalizing acc with
  | nil => simp
  | cons l rest ih =>
    rw [List.foldl_cons, configBody_eq, ih, List.filterMap_cons]
    cases h : processConfigLine l <;> simp [h]

theorem configFileStep_eq (readFile : String → Option String) (acc : List String)
    (p : String) : configFileStep readFile acc p = acc ++ configFileResult readFile p := by
  cases h : readFile p with
  | none => simp [configFileStep, configFileResult, h]
  | some data =>
    simp only [configFileStep, configFileResult, h]
    by_cases he : goTrim data configCutset = ""
    · rw [if_pos he, he]
      have hz : (goSplit (crlfToLfS "") '\n').filterMap processConfigLine = [] := by
        decide
      rw [hz, List.append_nil]
    · rw [if_neg he]
      exact foldl_configBody_eq _ _

theorem foldl_configFileStep (readFile : String → Option String)
    (paths : List String) (acc : List String) :
    paths.foldl (configFileStep readFile) acc
      = acc ++ paths.flatMap (configFileResult readFile) := by
  induction paths generalizing acc with
  | nil => simp
  | cons p rest ih =>
    rw [List.foldl_cons, configFileStep_eq, ih, List.flatMap_cons, List.append_assoc]

theorem clockFileStep_eq (openFile : String → Option String) (acc : List String)
    (p : String) : clockFileStep openFile acc p = acc ++ clockFileResult openFile p := by
  cases h : openFile p with
  | none => simp [clockFileStep, clockFileResult, h]
  | some content =>
    simp only [clockFileStep, clockFileResult, h]
    exact foldl_clockBody_eq _ _

theorem foldl_clockFileStep (openFile : String → Option String)
    (paths : List String) (acc : List String) :
    paths.foldl (clockFileStep openFile) acc
      = acc ++ paths.flatMap (clockFileResult openFile) := by
  induction paths generalizing acc with
  | nil => simp
  | cons p rest ih =>
    rw [List.foldl_cons, clockFileStep_eq, ih, List.flatMap_cons, List.append_assoc]

/-! ### Claim theorems -/

/-- Counterexample to C1 as stated: both candidates resolve to
`/etc/localtime`, which has three segments while the root
`/usr/share/zoneinfo` has four; the spec pipeline then has exactly one
distinct surviving identifier (the empty one), yet the program does not
return it with no error — the identifier-recovery slice
`parts[depth:]` is out of range and the program panics (result `none`),
so no pair at all is returned. -/
theorem resolver_unique_survivor_cex :
    dedupFirstSeen (survivorIds
      (fun p => if p = "/usr/share/zoneinfo/UTC" then some "/etc/localtime"
        else if p = "/usr/share/zoneinfo/Etc/UTC" then some "/etc/localtime"
        else none)
      "/usr/share/zoneinfo" ["UTC", "Etc/UTC"]) = [""]
    ∧ resolveTimezones
      (fun p => if p = "/usr/share/zoneinfo/UTC" then some "/etc/localtime"
        else if p = "/usr/share/zoneinfo/Etc/UTC" then some "/etc/localtime"
        else none)
      ["UTC", "Etc/UTC"] "/usr/share/zoneinfo" = none := by
  constructor
  · decide
  · decide

/-- C1 (amended): for every candidate list with two or more elements and
every zone-database root, provided every successfully resolved path has
at least as many segments as the root (so the identifier-recovery slice
is in bounds — otherwise the program panics instead of returning), the
resolver joins each candidate under the root, resolves the joined path
(skipping candidates that do not resolve), recovers identifiers by
dropping root-depth-many leading components and rejoining with slashes,
deduplicates them preserving first-seen order (`dedupFirstSeen ∘
survivorIds` spells out exactly this pipeline), and when exactly one
distinct identifier survives returns it with no error. -/
theorem resolver_unique_survivor (rp : String → Option String) (ts : List String)
    (z x : String) (h2 : 2 ≤ ts.length)
    (hdeep : ∀ t ∈ ts, ∀ p, rp (filepathJoin z t) = some p →
      (goSplit z '/').length ≤ (goSplit p '/').length)
    (hu : dedupFirstSeen (survivorIds rp z ts) = [x]) :
    resolveTimezones rp ts z = some (x, none) := by
  cases ts with
  | nil => exact absurd h2 (by decide)
  | cons t1 tl =>
    cases tl with
    | nil => exact absurd h2 (by simp)
    | cons t2 rest =>
      have hloop : survivorsLoop rp z ((goSplit z '/').length) (t1 :: t2 :: rest) []
          = some [x] := by
        rw [survivorsLoop_eq_foldl rp z ((goSplit z '/').length) (t1 :: t2 :: rest) []
          hdeep]
        rw [show (survivorIdsD rp z ((goSplit z '/').length)
          (t1 :: t2 :: rest)).foldl appendIfMissing [] = [x] from hu]
      simp only [resolveTimezones]
      rw [hloop]

/-- Witness for C1: a concrete world in which the two candidates `UTC`
and `Etc/UTC` both canonicalize to the identifier `Etc/UTC` (all
resolved paths at least root-deep), which is returned with no error. -/
theorem resolver_unique_survivor_witness :
    resolveTimezones
      (fun p => if p = "/usr/share/zoneinfo/UTC" then some "/usr/share/zoneinfo/Etc/UTC"
        else if p = "/usr/share/zoneinfo/Etc/UTC" then some "/usr/share/zoneinfo/Etc/UTC"
        else none)
      ["UTC", "Etc/UTC"] "/usr/share/zoneinfo" = some ("Etc/UTC", none) :=
  resolver_unique_survivor _ _ _ _ (by decide) (by decide) (by decide)

/-- Counterexample to C2 as stated: one candidate resolves under the
root and one to the three-segment `/etc/localtime`; the spec pipeline
then has two distinct surviving identifiers, yet the program does not
fail with the conflict message — the identifier-recovery slice is out of
range on the shallow path and the program panics (result `none`), so no
pair at all is returned. -/
theorem resolver_conflict_lines_cex :
    (dedupFirstSeen (survivorIds
      (fun p => if p = "/usr/share/zoneinfo/America/Sao_Paulo"
          then some "/usr/share/zoneinfo/America/Sao_Paulo"
        else if p = "/usr/share/zoneinfo/UTC" then some "/etc/localtime"
        else none)
      "/usr/share/zoneinfo" ["America/Sao_Paulo", "UTC"])).length = 2
    ∧ resolveTimezones
      (fun p => if p = "/usr/share/zoneinfo/America/Sao_Paulo"
          then some "/usr/share/zoneinfo/America/Sao_Paulo"
        else if p = "/usr/share/zoneinfo/UTC" then some "/etc/localtime"
        else none)
      ["America/Sao_Paulo", "UTC"] "/usr/share/zoneinfo" = none := by
  constructor
  · decide
  · decide

/-- C2 (amended): with two or more candidates, every successfully
resolved path at least as deep as the root (so the identifier-recovery
slice is in bounds — otherwise the program panics instead of returning),
and two or more distinct surviving identifiers, the resolver fails with
the empty identifier and an error message that begins with the literal
conflict header followed by a newline, lists every distinct surviving
identifier on its own line, and ends with the remediation sentence. -/
theorem resolver_conflict_lines (rp : String → Option String) (ts : List String)
    (z : String) (f : List String) (h2 : 2 ≤ ts.length)
    (hdeep : ∀ t ∈ ts, ∀ p, rp (filepathJoin z t) = some p →
      (goSplit z '/').length ≤ (goSplit p '/').length)
    (hf : dedupFirstSeen (survivorIds rp z ts) = f) (hlen : 2 ≤ f.length) :
    resolveTimezones rp ts z =
      some ("", some ("multiple conflicting time zone configurations found:
"
        ++ lineBlock f
        ++ "Fix the configuration, or set the time zone in a TZ environment variable")) := by
  cases ts with
  | nil => exact absurd h2 (by decide)
  | cons t1 tl =>
    cases tl with
    | nil => exact absurd h2 (by simp)
    | cons t2 rest =>
      cases f with
      | nil => exact absurd hlen (by decide)
      | cons f1 fl =>
        cases fl with
        | nil => exact absurd hlen (by simp)
        | cons f2 frest =>
          have hloop : survivorsLoop rp z ((goSplit z '/').length) (t1 :: t2 :: rest) []
              = some (f1 :: f2 :: frest) := by
            rw [survivorsLoop_eq_foldl rp z ((goSplit z '/').length) (t1 :: t2 :: rest) []
              hdeep]
            rw [show (survivorIdsD rp z ((goSplit z '/').length)
              (t1 :: t2 :: rest)).foldl appendIfMissing [] = f1 :: f2 :: frest from hf]
          have hstep : resolveTimezones rp (t1 :: t2 :: rest) z
              = some ("", some (conflictMessage (f1 :: f2 :: frest))) := by
            simp only [resolveTimezones]
            rw [hloop]
          rw [hstep, conflictMessage_eq]

/-- Witness for C2: two candidates canonicalizing to two distinct
identifiers, all resolved paths at least root-deep, produce the full
conflict message. -/
theorem resolver_conflict_lines_witness :
    resolveTimezones
      (fun p => if p = "/usr/share/zoneinfo/America/Sao_Paulo"
          then some "/usr/share/zoneinfo/America/Sao_Paulo"
        else if p = "/usr/share/zoneinfo/Africa/Harare"
          then some "/usr/share/zoneinfo/Africa/Harare"
        else none)
      ["America/Sao_Paulo", "Africa/Harare"] "/usr/share/zoneinfo" =
      some ("", some ("multiple conflicting time zone configurations found:
"
        ++ lineBlock ["America/Sao_Paulo", "Africa/Harare"]
        ++ "Fix the configuration, or set the time zone in a TZ environment variable")) :=
  resolver_conflict_lines _ _ _ _ (by decide) (by decide) (by decide) (by decide)

/-- C3: a candidate list with exactly one element is returned verbatim
with a nil error; the resolver function `rp` (the only filesystem access
the resolver can make) is universally quantified and unused, so no
filesystem access takes place. -/
theorem resolver_single_candidate (rp : String → Option String) (c z : String) :
    resolveTimezones rp [c] z = some (c, none) := rfl

/-- C4: the two soft outcomes: an empty candidate list succeeds with the
empty identifier and no error, and a list of two or more candidates none
of which resolves under the root also succeeds with the empty identifier
and no error. -/
theorem resolver_soft_outcomes (rp : String → Option String) (z : String)
    (ts : List String) (h2 : 2 ≤ ts.length)
    (hnone : ∀ t ∈ ts, rp (filepathJoin z t) = none) :
    resolveTimezones rp [] z = some ("", none)
    ∧ resolveTimezones rp ts z = some ("", none) := by
  refine ⟨rfl, ?_⟩
  cases ts with
  | nil => exact absurd h2 (by decide)
  | cons t1 tl =>
    cases tl with
    | nil => exact absurd h2 (by simp)
    | cons t2 rest =>
      have hdeep : ∀ t ∈ (t1 :: t2 :: rest), ∀ p, rp (filepathJoin z t) = some p →
          (goSplit z '/').length ≤ (goSplit p '/').length := by
        intro t ht p hp
        rw [hnone t ht] at hp
        exact absurd hp (by simp)
      have hids : survivorIdsD rp z ((goSplit z '/').length) (t1 :: t2 :: rest) = [] := by
        refine List.filterMap_eq_nil_iff.mpr ?_
        intro a ha
        simp [hnone a ha]
      have hloop : survivorsLoop rp z ((goSplit z '/').length) (t1 :: t2 :: rest) []
          = some [] := by
        rw [survivorsLoop_eq_foldl rp z ((goSplit z '/').length) (t1 :: t2 :: rest) []
          hdeep, hids]
        rfl
      simp only [resolveTimezones]
      rw [hloop]

/-- Witness for C4: two candidates, a resolver that fails on every path,
an empty-identifier success. -/
theorem resolver_soft_outcomes_witness :
    resolveTimezones (fun _ => none) [] "/usr/share/zoneinfo" = some ("", none)
    ∧ resolveTimezones (fun _ => none) ["America/Sao_Paulo", "Africa/Harare"]
        "/usr/share/zoneinfo" = some ("", none) :=
  resolver_soft_outcomes (fun _ => none) "/usr/share/zoneinfo"
    ["America/Sao_Paulo", "Africa/Harare"] (by decide) (by decide)

/-- C5: for every canonical identifier `Z` in the timezone table, when
the `TZ` environment variable holds `Z` the entry point returns `Z` with
no error; the world `w` is otherwise arbitrary, so no filesystem field
(config files, clock files, symlink, realpath) influences the result.
The hypothesis that `Z` is non-empty reflects that every key of the
canonical table is a non-empty identifier. -/
theorem name_env_short_circuit (w : World) (Z : String) (hne : Z ≠ "")
    (hmem : w.timezones Z = true) (henv : w.getenvTZ = Z) :
    Name w = some (Z, none) := by
  have hp : parseEnv w = Z := by
    simp [parseEnv, henv, hne, hmem]
  simp [Name, hp, hne]

/-- Witness for C5: a world whose table contains exactly `UTC` and whose
environment holds `UTC`; every filesystem probe fails. -/
theorem name_env_short_circuit_witness :
    Name ⟨"UTC", fun s => s == "UTC", fun _ => false, fun _ => none,
      fun _ => none, fun _ => none, fun _ => none⟩ = some ("UTC", none) :=
  name_env_short_circuit _ "UTC" (by decide) (by decide) (by decide)

/-- C6: the config-file probe is, for every readable file, the pipeline
the spec describes: trim leading and trailing slashes and whitespace from
the whole content, split into lines (after CRLF normalization), and for
each line drop everything after the first space, drop everything after
the first hash, trim whitespace, normalize spaces to underscores and keep
the line only when non-empty; in particular the hostname-and-comment
example yields exactly one identifier, and an empty file yields the empty
list. -/
theorem config_probe_characterized :
    (∀ (readFile : String → Option String) (paths : List String),
      parseFromConfigFile readFile paths = paths.flatMap (configFileResult readFile))
    ∧ parseFromConfigFile
        (fun q => if q = "/etc/timezone"
          then some "America/Sao_Paulo some-hostname # comment\n" else none)
        ["/etc/timezone", "/var/db/zoneinfo"] = ["America/Sao_Paulo"]
    ∧ parseFromConfigFile (fun q => if q = "/etc/timezone" then some "" else none)
        ["/etc/timezone", "/var/db/zoneinfo"] = [] := by
  refine ⟨fun readFile paths => ?_, by decide, by decide⟩
  rw [parseFromConfigFile, foldl_configFileStep]
  rfl

/-- C7: the key=value probe is, for every readable file, the pipeline
the spec describes: scan the lines; exactly the lines matched by the
anchored `TIMEZONE`/`ZONE` pattern with a non-empty quoted capture
contribute, and they contribute the capture with spaces normalized to
underscores; in particular a `ZONE="America/Sao_Paulo"` file yields
exactly that identifier and a file with no matching line yields the
empty list. -/
theorem clock_probe_characterized :
    (∀ (openFile : String → Option String) (paths : List String),
      parseFromClock openFile paths = paths.flatMap (clockFileResult openFile))
    ∧ parseFromClock
        (fun q => if q = "/etc/sysconfig/clock"
          then some "ZONE=\"America/Sao_Paulo\"\n" else none)
        ["/etc/sysconfig/clock", "/etc/conf.d/clock"] = ["America/Sao_Paulo"]
    ∧ parseFromClock
        (fun q => if q = "/etc/sysconfig/clock"
          then some "UTC=true\nARC=false\n" else none)
        ["/etc/sysconfig/clock", "/etc/conf.d/clock"] = [] := by
  refine ⟨fun openFile paths => ?_, by decide, by decide⟩
  rw [parseFromClock, foldl_clockFileStep]
  rfl

/-- C8: the entry point is a deterministic function of the external state
it reads: two sequenced invocations against one unchanged world return
identical identifier-error pairs (the embedding is pure because the
program keeps no mutable package-level state). -/
theorem name_deterministic (w : World) : (nameTwice w).1 = (nameTwice w).2 := rfl

/-- C9: on every return path of the resolver and of the three platform
entry points, the identifier is empty or the error is nil — equivalently,
a non-nil error comes with the empty identifier and a non-empty
identifier comes with a nil error.  For the resolver and the Unix entry
point, whose panic is modelled by `none`, the statement quantifies over
every actually returned pair; the Windows entry point and the stub always
return. -/
theorem error_implies_empty_identifier :
    (∀ (rp : String → Option String) (ts : List String) (z s : String)
      (e : Option String), resolveTimezones rp ts z = some (s, e) → s = "" ∨ e = none)
    ∧ (∀ (w : World) (s : String) (e : Option String),
        Name w = some (s, e) → s = "" ∨ e = none)
    ∧ (∀ w : WinWorld, (NameWindows w).1 = "" ∨ (NameWindows w).2 = none)
    ∧ (∀ goos : String, (NameUnsupported goos).1 = ""
        ∨ (NameUnsupported goos).2 = none) := by
  have hres : ∀ (rp : String → Option String) (ts : List String) (z s : String)
      (e : Option String), resolveTimezones rp ts z = some (s, e) → s = "" ∨ e = none := by
    intro rp ts z s e hr
    cases ts with
    | nil =>
      injection hr with h1
      injection h1 with hs he
      exact Or.inl hs.symm
    | cons t1 tl =>
      cases tl with
      | nil =>
        injection hr with h1
        injection h1 with hs he
        exact Or.inr he.symm
      | cons t2 rest =>
        simp only [resolveTimezones] at hr
        revert hr
        cases survivorsLoop rp z ((goSplit z '/').length) (t1 :: t2 :: rest) [] with
        | none => intro hr; simp at hr
        | some fl =>
          cases fl with
          | nil =>
            intro hr
            injection hr with h1
            injection h1 with hs he
            exact Or.inl hs.symm
          | cons f1 fl2 =>
            cases fl2 with
            | nil =>
              intro hr
              injection hr with h1
              injection h1 with hs he
              exact Or.inr he.symm
            | cons f2 frest =>
              intro hr
              injection hr with h1
              injection h1 with hs he
              exact Or.inl hs.symm
  have hname : ∀ (w : World) (s : String) (e : Option String),
      Name w = some (s, e) → s = "" ∨ e = none := by
    intro w s e hr
    by_cases henv : parseEnv w = ""
    · simp only [Name, henv, ne_eq, not_true_eq_false, if_false] at hr
      exact hres _ _ _ _ _ hr
    · simp only [Name, ne_eq, henv, not_false_eq_true, if_true] at hr
      injection hr with h1
      injection h1 with hs he
      exact Or.inr he.symm
  refine ⟨hres, hname, fun w => ?_, fun _ => Or.inl rfl⟩
  by_cases henv : parseEnvWin w = ""
  · by_cases hok : w.openKeyOk = true
    · cases hkey : w.tzKeyName with
      | none => simp [NameWindows, henv, hok, hkey]
      | some raw =>
        cases h1 : w.windowsTimezones (stripNulls raw) with
        | some tz => simp [NameWindows, henv, hok, hkey, h1]
        | none =>
          cases h2 : w.windowsTimezones (stripNulls raw ++ " Standard Time") with
          | some tz => simp [NameWindows, henv, hok, hkey, h1, h2]
          | none => simp [NameWindows, henv, hok, hkey, h1, h2]
    · have hok2 : w.openKeyOk = false := by
        cases hw : w.openKeyOk
        · rfl
        · exact absurd hw hok
      simp [NameWindows, henv, hok2]
  · simp [NameWindows, henv]

/-- Witness for C9: the resolver conjunct applied at a concrete conflict
world whose returned pair has the empty identifier and a non-nil
error. -/
theorem error_implies_empty_identifier_witness :
    ("" : String) = ""
    ∨ (some (conflictMessage ["Europe/Lisbon", "Atlantic/Azores"]) : Option String)
        = none :=
  error_implies_empty_identifier.1
    (fun p => if p = "/usr/share/zoneinfo/Europe/Lisbon"
        then some "/usr/share/zoneinfo/Europe/Lisbon"
      else if p = "/usr/share/zoneinfo/Atlantic/Azores"
        then some "/usr/share/zoneinfo/Atlantic/Azores"
      else none)
    ["Europe/Lisbon", "Atlantic/Azores"] "/usr/share/zoneinfo" ""
    (some (conflictMessage ["Europe/Lisbon", "Atlantic/Azores"]))
    (by decide)

/-- C10: the submatch-indexing loop of `parseFromClock` never indexes out
of bounds: the submatch list is either empty — and then the guard
`0 < i ∧ i ≤ length` holds for no index — or exactly as long as the
subexpression-name list, and then every index the loop guards is
strictly within bounds. -/
theorem clock_submatch_indexing_safe (line : String) :
    ((findStringSubmatch line).length = 0
      ∨ (findStringSubmatch line).length = subexpNames.length)
    ∧ (∀ i, i < subexpNames.length → 0 < i →
        i ≤ (findStringSubmatch line).length → i < (findStringSubmatch line).length) := by
  cases h : reMatch line with
  | none =>
    refine ⟨Or.inl (by simp [findStringSubmatch, h]), ?_⟩
    intro i hi hpos hle
    simp only [findStringSubmatch, h, List.length_nil] at hle
    omega
  | some kt =>
    obtain ⟨k, t⟩ := kt
    refine ⟨Or.inr ?_, ?_⟩
    · simp [findStringSubmatch, h, subexpNames]
    · intro i hi hpos hle
      simp only [findStringSubmatch, h, List.length_cons, List.length_nil] at hle ⊢
      simp only [subexpNames, List.length_cons, List.length_nil] at hi
      omega

/-- Witness for C10: a matching line has a submatch list of length three,
and index two (the `tz` group the loop reads) is strictly in bounds. -/
theorem clock_submatch_indexing_safe_witness :
    2 < (findStringSubmatch "ZONE=\"America/Sao_Paulo\"").length :=
  (clock_submatch_indexing_safe "ZONE=\"America/Sao_Paulo\"").2 2
    (by decide) (by decide) (by decide)

end Olson
